import Mathlib

/-
Verification development for the json-crud-server repository (src/server.ts).

The server keeps every item twice: in the in-memory JavaScript object
`dataStore` and as a file `<data_dir>/<id>.json`.  We embed the JSON values,
both stores, and each route handler as pure Lean functions.  JavaScript
objects are modelled as insertion-ordered association lists (`AList`), JS
property assignment as `aset` (update in place, else append), `delete` as
`aremove`, and the JS truthiness test `if (obj[id])` as `jsTruthyGet`.
Filesystem effects are modelled by an association list from id to the file's
parsed content (`FileData.good j`) or `FileData.corrupt` when `JSON.parse`
would throw, together with the file's mtime in epoch milliseconds.  The
wall clock observed by a handler is a `Clock` (ISO string for
`new Date().toISOString()` plus epoch milliseconds for the resulting mtime).
-/

namespace JsonCrud

/-- JSON values.  Numbers are modelled as integers; the only numeric fact the
server ever inspects is JS truthiness, i.e. comparison with `0`. -/
inductive Json where
  | null : Json
  | bool : Bool → Json
  | num : Int → Json
  | str : String → Json
  | arr : List Json → Json
  | obj : List (String × Json) → Json

/-- JavaScript truthiness of a JSON value (`undefined` is represented by
`Option.none` at use sites). -/
def truthy : Json → Bool
  | Json.null => false
  | Json.bool b => b
  | Json.num n => n != 0
  | Json.str s => s != ""
  | Json.arr _ => true
  | Json.obj _ => true

/-- Insertion-ordered string-keyed association list: the model of a JS object
and of a directory of files. -/
abbrev AList (α : Type) : Type := List (String × α)

/-- Property read `m[k]`: first binding for `k`, `none` for `undefined`. -/
def alookup {α : Type} : AList α → String → Option α
  | [], _ => none
  | (k0, v0) :: rest, k => if k0 = k then some v0 else alookup rest k

/-- Property write `m[k] = v`: overwrite in place if the key exists,
otherwise append (JS property-order semantics). -/
def aset {α : Type} : AList α → String → α → AList α
  | [], k, v => [(k, v)]
  | (k0, v0) :: rest, k, v =>
    if k0 = k then (k0, v) :: rest else (k0, v0) :: aset rest k v

/-- Property delete `delete m[k]`. -/
def aremove {α : Type} : AList α → String → AList α
  | [], _ => []
  | (k0, v0) :: rest, k =>
    if k0 = k then aremove rest k else (k0, v0) :: aremove rest k

/-- The JS test `m[k]` used by the handlers for existence: the value when the
key is present with a truthy value, and `none` (falsy) otherwise. -/
def jsTruthyGet (m : AList Json) (k : String) : Option Json :=
  match alookup m k with
  | some v => if truthy v then some v else none
  | none => none

/-- Index-keyed fields produced by spreading an array or a string. -/
def indexFields (xs : List Json) : AList Json :=
  xs.enum.map fun p => (toString p.1, p.2)

/-- Own enumerable properties contributed by `{...data}` for each shape of
`data`: an object spreads its fields, an array and a string spread their
elements under numeric-string keys, and every other value spreads nothing. -/
def spreadFields : Json → AList Json
  | Json.obj fs => fs
  | Json.arr xs => indexFields xs
  | Json.str s => indexFields (s.data.map fun c => Json.str (String.mk [c]))
  | _ => []

/-- Parsed content of an item file: well-formed JSON or content on which
`JSON.parse` throws. -/
inductive FileData where
  | good : Json → FileData
  | corrupt : FileData

/-- One file of the data directory: its parsed content and its modification
time in epoch milliseconds (`none` models a null `mtime`). -/
structure DiskFile where
  data : FileData
  mtime : Option Int

/-- The wall clock at a write: `new Date().toISOString()` and the epoch
milliseconds that become the written file's mtime. -/
structure Clock where
  iso : String
  ms : Int

/-- `JSON.stringify({ ...data, createdAt: new Date().toISOString() })`:
the body actually persisted to disk by `writeIndividualDataFile`. -/
def fileContentOf (data : Json) (nowIso : String) : Json :=
  Json.obj (aset (spreadFields data) "createdAt" (Json.str nowIso))

/-- `writeIndividualDataFile(id, data)`: overwrite `<data_dir>/<id>.json`
with `data` plus a fresh `createdAt` stamp; the file's mtime becomes now. -/
def writeIndividualDataFile (disk : AList DiskFile) (id : String) (data : Json)
    (clk : Clock) : AList DiskFile :=
  aset disk id ⟨FileData.good (fileContentOf data clk.iso), some clk.ms⟩

/-- `deleteIndividualDataFile(id)`: remove the file, ignoring a missing file
(idempotent delete at the repository layer). -/
def deleteIndividualDataFile (disk : AList DiskFile) (id : String) :
    AList DiskFile :=
  aremove disk id

/-- The whole mutable state of the server: the in-memory `dataStore` object
and the data directory. -/
structure ServerState where
  dataStore : AList Json
  disk : AList DiskFile

/-- An HTTP response produced by a handler. -/
structure Response where
  status : Nat
  body : Json

/-- The error bodies such as `{ error: "Not Found" }`. -/
def jsonError (msg : String) : Json :=
  Json.obj [("error", Json.str msg)]

/-- Handler of `GET /json/:id`: serve the in-memory value when truthy,
otherwise read the file; a missing file is 404, a file whose content fails
`JSON.parse` raises and is caught as 500.  Read-only. -/
def getOneHandler (st : ServerState) (id : String) : Response × ServerState :=
  match jsTruthyGet st.dataStore id with
  | some v => (⟨200, v⟩, st)
  | none =>
    match alookup st.disk id with
    | some f =>
      match f.data with
      | FileData.good j => (⟨200, j⟩, st)
      | FileData.corrupt => (⟨500, jsonError "Internal Server Error"⟩, st)
    | none => (⟨404, jsonError "Not Found"⟩, st)

/-- One directory entry processed by the `GET /json` loop: skip it when
`result[id]` is truthy, add the parsed file content when it parses, and log
and skip it when it is corrupt. -/
def getAllStep (res : AList Json) (entry : String × DiskFile) : AList Json :=
  match jsTruthyGet res entry.1 with
  | some _ => res
  | none =>
    match entry.2.data with
    | FileData.good j => aset res entry.1 j
    | FileData.corrupt => res

/-- The `result` object built by `GET /json`: start from `{...dataStore}` and
fold the directory entries through `getAllStep`. -/
def getAllFold (store : AList Json) (disk : AList DiskFile) : AList Json :=
  disk.foldl getAllStep store

/-- Handler of `GET /json`: always 200 with the merged object.  Read-only. -/
def getAllHandler (st : ServerState) : Response × ServerState :=
  (⟨200, Json.obj (getAllFold st.dataStore st.disk)⟩, st)

/-- Handler of `POST /json` after auth: `body = none` models a request body
on which `c.req.json()` throws (`SyntaxError` → 400).  Otherwise store the
raw body in memory under the fresh id and write the stamped file. -/
def createHandler (st : ServerState) (body : Option Json) (newId : String)
    (baseUrl : String) (clk : Clock) : Response × ServerState :=
  match body with
  | none => (⟨400, jsonError "Bad Request - Invalid JSON"⟩, st)
  | some b =>
    (⟨201, Json.obj [("id", Json.str newId),
                     ("url", Json.str (baseUrl ++ "/json/" ++ newId)),
                     ("data", b)]⟩,
     ⟨aset st.dataStore newId b, writeIndividualDataFile st.disk newId b clk⟩)

/-- Handler of `PUT /json/:id` after auth: parse the body first (400 on
failure), then the truthiness existence check on `dataStore[id]` alone
(404 on failure, disk never consulted), then write through both stores. -/
def putHandler (st : ServerState) (id : String) (body : Option Json)
    (clk : Clock) : Response × ServerState :=
  match body with
  | none => (⟨400, jsonError "Bad Request - Invalid JSON"⟩, st)
  | some b =>
    match jsTruthyGet st.dataStore id with
    | none => (⟨404, jsonError "Not Found"⟩, st)
    | some _ =>
      (⟨200, b⟩, ⟨aset st.dataStore id b, writeIndividualDataFile st.disk id b clk⟩)

/-- `{...a, ...b}` on objects: fold the fields of `b` into `a` by property
assignment. -/
def mergeInto (a b : AList Json) : AList Json :=
  b.foldl (fun acc kv => aset acc kv.1 kv.2) a

/-- Handler of `PATCH /json/:id` after auth: parse first (400), truthiness
existence check on memory only (404), then
`dataStore[id] = { ...dataStore[id], ...updates }` and write through. -/
def patchHandler (st : ServerState) (id : String) (body : Option Json)
    (clk : Clock) : Response × ServerState :=
  match body with
  | none => (⟨400, jsonError "Bad Request - Invalid JSON"⟩, st)
  | some updates =>
    match jsTruthyGet st.dataStore id with
    | none => (⟨404, jsonError "Not Found"⟩, st)
    | some old =>
      let merged := Json.obj (mergeInto (spreadFields old) (spreadFields updates))
      (⟨200, merged⟩,
       ⟨aset st.dataStore id merged, writeIndividualDataFile st.disk id merged clk⟩)

/-- Handler of `DELETE /json/:id` after auth: truthiness existence check on
memory only (404), then delete from the store and from the directory. -/
def deleteHandler (st : ServerState) (id : String) : Response × ServerState :=
  match jsTruthyGet st.dataStore id with
  | none => (⟨404, jsonError "Not Found"⟩, st)
  | some _ =>
    (⟨200, Json.obj [("message", Json.str "Json deleted successfully")]⟩,
     ⟨aremove st.dataStore id, deleteIndividualDataFile st.disk id⟩)

/-- `configData.retention?.days || 7`: a missing section or a `0` value
falls back to the default of 7 days. -/
def retentionDaysOf (cfg : Option Int) : Int :=
  match cfg with
  | some d => if d = 0 then 7 else d
  | none => 7

/-- Whether `cleanupOldFiles` deletes a file: it has a non-null mtime and
`now - mtime > retentionMs` strictly. -/
def isOver (retentionMs nowMs : Int) (f : DiskFile) : Bool :=
  match f.mtime with
  | some m => decide (nowMs - m > retentionMs)
  | none => false

/-- One directory entry processed by `cleanupOldFiles`: delete the over-age
file, and drop the id from `dataStore` only when `dataStore[id]` is truthy. -/
def cleanupStep (retentionMs nowMs : Int) (acc : ServerState)
    (entry : String × DiskFile) : ServerState :=
  if isOver retentionMs nowMs entry.2 then
    ⟨match jsTruthyGet acc.dataStore entry.1 with
      | some _ => aremove acc.dataStore entry.1
      | none => acc.dataStore,
     aremove acc.disk entry.1⟩
  else acc

/-- `cleanupOldFiles()`: sweep every `.json` file of the data directory,
deleting the ones whose age strictly exceeds the retention threshold.
File removals are modelled as succeeding. -/
def cleanupOldFiles (cfg : Option Int) (nowMs : Int) (st : ServerState) :
    ServerState :=
  st.disk.foldl (cleanupStep (retentionDaysOf cfg * 86400000) nowMs) st

def msPerMinute : Int := 60000
def msPerHour : Int := 3600000
def msPerDay : Int := 86400000

/-- Epoch milliseconds of the next local midnight after epoch `e`, for a host
whose `getTimezoneOffset()` is the constant `offMin` minutes (UTC minus
local): this is what `setDate(getDate() + 1)` followed by
`setHours(0, 0, 0, 0)` computes on a `Date` holding `e`. -/
def nextLocalMidnight (offMin : Int) (e : Int) : Int :=
  ((e - offMin * msPerMinute).fdiv msPerDay + 1) * msPerDay + offMin * msPerMinute

/-- The startup delay computed by `scheduleCleanup()` on a host with constant
timezone offset `offMin` at epoch `nowMs`: shift `now` by
`getTimezoneOffset()` and a hard-coded `+7` hours, then take the next *host
local* midnight of the shifted instant. -/
def scheduleCleanupDelay (offMin : Int) (nowMs : Int) : Int :=
  nextLocalMidnight offMin (nowMs + offMin * msPerMinute + 7 * msPerHour) - nowMs

/-- Modelled from the spec: the instant the sweep is documented to fire at,
namely the next midnight in the fixed Asia/Jakarta (UTC+7) timezone after
`nowMs`. -/
def nextJakartaMidnight (nowMs : Int) : Int :=
  ((nowMs + 7 * msPerHour).fdiv msPerDay + 1) * msPerDay - 7 * msPerHour

/-! ### Association-list lemmas -/

theorem alookup_aset_self {α : Type} (l : AList α) (k : String) (v : α) :
    alookup (aset l k v) k = some v := by
  induction l with
  | nil => simp [aset, alookup]
  | cons e rest ih =>
    obtain ⟨k0, v0⟩ := e
    by_cases h : k0 = k
    · simp [aset, alookup, h]
    · simp [aset, alookup, h, ih]

theorem alookup_aset_ne {α : Type} (l : AList α) (k k2 : String) (v : α)
    (h : k2 ≠ k) : alookup (aset l k v) k2 = alookup l k2 := by
  induction l with
  | nil => simp [aset, alookup, Ne.symm h]
  | cons e rest ih =>
    obtain ⟨k0, v0⟩ := e
    by_cases h0 : k0 = k
    · subst h0
      simp [aset, alookup, Ne.symm h]
    · simp [aset, alookup, h0, ih]

theorem alookup_aremove_self {α : Type} (l : AList α) (k : String) :
    alookup (aremove l k) k = none := by
  induction l with
  | nil => simp [aremove, alookup]
  | cons e rest ih =>
    obtain ⟨k0, v0⟩ := e
    by_cases h : k0 = k
    · simp [aremove, h, ih]
    · simp [aremove, alookup, h, ih]

theorem alookup_aremove_ne {α : Type} (l : AList α) (k k2 : String)
    (h : k2 ≠ k) : alookup (aremove l k) k2 = alookup l k2 := by
  induction l with
  | nil => simp [aremove]
  | cons e rest ih =>
    obtain ⟨k0, v0⟩ := e
    by_cases h0 : k0 = k
    · subst h0
      simp [aremove, alookup, Ne.symm h, ih]
    · simp [aremove, alookup, h0, ih]

theorem alookup_mem {α : Type} (l : AList α) (k : String) (v : α)
    (h : alookup l k = some v) : (k, v) ∈ l := by
  induction l with
  | nil => simp [alookup] at h
  | cons e rest ih =>
    obtain ⟨k0, v0⟩ := e
    by_cases h0 : k0 = k
    · subst h0
      simp [alookup] at h
      subst h
      exact List.mem_cons_self _ _
    · simp [alookup, h0] at h
      exact List.mem_cons_of_mem _ (ih h)

theorem alookup_of_mem_nodup {α : Type} (l : AList α) (k : String) (v : α)
    (hnd : (l.map Prod.fst).Nodup) (hmem : (k, v) ∈ l) :
    alookup l k = some v := by
  induction l with
  | nil => cases hmem
  | cons e rest ih =>
    obtain ⟨k0, v0⟩ := e
    simp only [List.map_cons, List.nodup_cons] at hnd
    rcases List.mem_cons.mp hmem with h | h
    · cases h
      simp [alookup]
    · by_cases hk : k0 = k
      · subst hk
        exact absurd (List.mem_map.mpr ⟨(k0, v), h, rfl⟩) hnd.1
      · simp only [alookup, hk, if_neg hk]
        exact ih hnd.2 h

theorem alookup_eq_none_of_not_mem {α : Type} (l : AList α) (k : String)
    (h : ¬ k ∈ l.map Prod.fst) : alookup l k = none := by
  induction l with
  | nil => rfl
  | cons e rest ih =>
    obtain ⟨k0, v0⟩ := e
    simp only [List.map_cons, List.mem_cons] at h
    push_neg at h
    simp [alookup, Ne.symm h.1, ih h.2]

theorem jsTruthyGet_eq_some {m : AList Json} {k : String} {v : Json}
    (h : alookup m k = some v) (ht : truthy v = true) :
    jsTruthyGet m k = some v := by
  simp [jsTruthyGet, h, ht]

theorem jsTruthyGet_eq_none_of_none {m : AList Json} {k : String}
    (h : alookup m k = none) : jsTruthyGet m k = none := by
  simp [jsTruthyGet, h]

theorem jsTruthyGet_eq_none_of_falsy {m : AList Json} {k : String} {v : Json}
    (h : alookup m k = some v) (ht : truthy v = false) :
    jsTruthyGet m k = none := by
  simp [jsTruthyGet, h, ht]

theorem jsTruthyGet_congr {m m2 : AList Json} {k : String}
    (h : alookup m k = alookup m2 k) : jsTruthyGet m k = jsTruthyGet m2 k := by
  unfold jsTruthyGet
  rw [h]

/-! ### Lemmas about the GET /json accumulation loop -/

theorem getAllStep_lookup_ne (res : AList Json) (entry : String × DiskFile)
    (k : String) (h : k ≠ entry.1) :
    alookup (getAllStep res entry) k = alookup res k := by
  unfold getAllStep
  cases jsTruthyGet res entry.1 with
  | some v => rfl
  | none =>
    cases entry.2.data with
    | good j => exact alookup_aset_ne _ _ _ _ h
    | corrupt => rfl

theorem getAllStep_corrupt (res : AList Json) (entry : String × DiskFile)
    (h : entry.2.data = FileData.corrupt) : getAllStep res entry = res := by
  unfold getAllStep
  cases jsTruthyGet res entry.1 with
  | some v => rfl
  | none => rw [h]

theorem getAllFold_mem_truthy (L : AList DiskFile) (res : AList Json)
    (k : String) (v : Json) (hv : alookup res k = some v)
    (ht : truthy v = true) :
    alookup (L.foldl getAllStep res) k = some v := by
  induction L generalizing res with
  | nil => simpa using hv
  | cons e rest ih =>
    rw [List.foldl_cons]
    apply ih
    by_cases hk : e.1 = k
    · have : jsTruthyGet res e.1 = some v := hk ▸ jsTruthyGet_eq_some hv ht
      unfold getAllStep
      rw [this]
      exact hv
    · rw [getAllStep_lookup_ne res e k (Ne.symm hk)]
      exact hv

theorem getAllFold_not_mem (L : AList DiskFile) (res : AList Json) (k : String)
    (hk : ¬ k ∈ L.map Prod.fst) :
    alookup (L.foldl getAllStep res) k = alookup res k := by
  induction L generalizing res with
  | nil => rfl
  | cons e rest ih =>
    simp only [List.map_cons, List.mem_cons] at hk
    push_neg at hk
    rw [List.foldl_cons, ih _ hk.2, getAllStep_lookup_ne res e k hk.1]

theorem getAllFold_adds (L : AList DiskFile) (res : AList Json) (k : String)
    (f : DiskFile) (j : Json) (hnd : (L.map Prod.fst).Nodup)
    (hres : jsTruthyGet res k = none) (hmem : (k, f) ∈ L)
    (hj : f.data = FileData.good j) :
    alookup (L.foldl getAllStep res) k = some j := by
  induction L generalizing res with
  | nil => cases hmem
  | cons e rest ih =>
    obtain ⟨k0, f0⟩ := e
    simp only [List.map_cons, List.nodup_cons] at hnd
    rw [List.foldl_cons]
    rcases List.mem_cons.mp hmem with h | h
    · cases h
      have hstep : getAllStep res (k, f) = aset res k j := by
        unfold getAllStep
        simp only [hres, hj]
      rw [hstep, getAllFold_not_mem rest _ k hnd.1, alookup_aset_self]
    · have hk0 : k0 ≠ k := by
        intro hh
        exact hnd.1 (hh ▸ List.mem_map.mpr ⟨(k, f), h, rfl⟩)
      refine ih _ hnd.2 ?_ h
      rw [jsTruthyGet_congr (getAllStep_lookup_ne res (k0, f0) k (Ne.symm hk0))]
      exact hres

theorem getAllFold_corrupt_skip (L : AList DiskFile) (res : AList Json)
    (k : String) (hall : ∀ f, (k, f) ∈ L → f.data = FileData.corrupt) :
    alookup (L.foldl getAllStep res) k = alookup res k := by
  induction L generalizing res with
  | nil => rfl
  | cons e rest ih =>
    obtain ⟨k0, f0⟩ := e
    rw [List.foldl_cons, ih _ fun f hf => hall f (List.mem_cons_of_mem _ hf)]
    by_cases hk : k0 = k
    · subst hk
      rw [getAllStep_corrupt res (k0, f0) (hall f0 (List.mem_cons_self _ _))]
    · exact getAllStep_lookup_ne res (k0, f0) k (Ne.symm hk)

/-! ### Lemmas about the cleanup sweep -/

theorem cleanupStep_disk (rm now : Int) (acc : ServerState)
    (e : String × DiskFile) (k : String) :
    alookup (cleanupStep rm now acc e).disk k =
      if e.1 = k ∧ isOver rm now e.2 = true then none else alookup acc.disk k := by
  unfold cleanupStep
  by_cases hover : isOver rm now e.2 = true
  · by_cases hk : e.1 = k
    · subst hk
      simp [hover, alookup_aremove_self]
    · simp [hover, hk, alookup_aremove_ne _ _ _ (Ne.symm hk)]
  · simp [hover]

theorem cleanupStep_store (rm now : Int) (acc : ServerState)
    (e : String × DiskFile) (k : String) :
    alookup (cleanupStep rm now acc e).dataStore k =
      if e.1 = k ∧ isOver rm now e.2 = true ∧
          (jsTruthyGet acc.dataStore k).isSome = true then none
      else alookup acc.dataStore k := by
  unfold cleanupStep
  by_cases hover : isOver rm now e.2 = true
  · by_cases hk : e.1 = k
    · subst hk
      cases hg : jsTruthyGet acc.dataStore e.1 with
      | some v => simp [hover, hg, alookup_aremove_self]
      | none => simp [hover, hg]
    · cases hg : jsTruthyGet acc.dataStore e.1 with
      | some v => simp [hover, hk, hg, alookup_aremove_ne _ _ _ (Ne.symm hk)]
      | none => simp [hover, hk, hg]
  · simp [hover]

/-- Whether the sweep loop variable matches this id with an over-age file. -/
def overEntry (rm now : Int) (k : String) (e : String × DiskFile) : Bool :=
  decide (e.1 = k) && isOver rm now e.2

theorem cleanup_foldl_disk (L : AList DiskFile) (acc : ServerState)
    (k : String) (rm now : Int) :
    alookup (L.foldl (cleanupStep rm now) acc).disk k =
      if L.any (overEntry rm now k) then none else alookup acc.disk k := by
  induction L generalizing acc with
  | nil => simp
  | cons e rest ih =>
    rw [List.foldl_cons, ih, List.any_cons]
    by_cases hP : overEntry rm now k e = true
    · rcases Bool.and_eq_true_iff.mp hP with ⟨h1, h2⟩
      have hk : e.1 = k := of_decide_eq_true h1
      by_cases hA : rest.any (overEntry rm now k) = true
      · simp [hP, hA]
      · simp [hP, hA, cleanupStep_disk, hk, h2]
    · have hsplit : ¬ (e.1 = k ∧ isOver rm now e.2 = true) := by
        intro hh
        exact hP (Bool.and_eq_true_iff.mpr ⟨decide_eq_true hh.1, hh.2⟩)
      by_cases hA : rest.any (overEntry rm now k) = true
      · simp [hP, hA]
      · simp [hP, hA, cleanupStep_disk, hsplit]

theorem cleanup_foldl_store (L : AList DiskFile) (acc : ServerState)
    (k : String) (rm now : Int) :
    alookup (L.foldl (cleanupStep rm now) acc).dataStore k =
      if L.any (overEntry rm now k) ∧
          (jsTruthyGet acc.dataStore k).isSome = true then none
      else alookup acc.dataStore k := by
  induction L generalizing acc with
  | nil => simp
  | cons e rest ih =>
    rw [List.foldl_cons, ih, List.any_cons]
    by_cases hP : overEntry rm now k e = true
    · rcases Bool.and_eq_true_iff.mp hP with ⟨h1, h2⟩
      have hk : e.1 = k := of_decide_eq_true h1
      by_cases ht : (jsTruthyGet acc.dataStore k).isSome = true
      · have hstore : alookup (cleanupStep rm now acc e).dataStore k = none := by
          rw [cleanupStep_store]
          simp [hk, h2, ht]
        have htg : jsTruthyGet (cleanupStep rm now acc e).dataStore k = none :=
          jsTruthyGet_eq_none_of_none hstore
        simp [hP, ht, htg, hstore]
      · have hstore : alookup (cleanupStep rm now acc e).dataStore k =
            alookup acc.dataStore k := by
          rw [cleanupStep_store]
          simp [ht]
        have htg : jsTruthyGet (cleanupStep rm now acc e).dataStore k =
            jsTruthyGet acc.dataStore k := jsTruthyGet_congr hstore
        simp [hP, ht, htg, hstore]
    · have hsplit : ¬ (e.1 = k ∧ isOver rm now e.2 = true ∧
          (jsTruthyGet acc.dataStore k).isSome = true) := by
        intro hh
        exact hP (Bool.and_eq_true_iff.mpr ⟨decide_eq_true hh.1, hh.2.1⟩)
      have hstore : alookup (cleanupStep rm now acc e).dataStore k =
          alookup acc.dataStore k := by
        rw [cleanupStep_store]
        simp [hsplit]
      have htg : jsTruthyGet (cleanupStep rm now acc e).dataStore k =
          jsTruthyGet acc.dataStore k := jsTruthyGet_congr hstore
      simp only [hP, Bool.false_or, htg, hstore]

theorem any_overEntry_of_lookup (L : AList DiskFile) (k : String)
    (f : DiskFile) (rm now : Int) (hnd : (L.map Prod.fst).Nodup)
    (h : alookup L k = some f) :
    L.any (overEntry rm now k) = isOver rm now f := by
  induction L with
  | nil => simp [alookup] at h
  | cons e rest ih =>
    obtain ⟨k0, f0⟩ := e
    simp only [List.map_cons, List.nodup_cons] at hnd
    rw [List.any_cons]
    by_cases hk : k0 = k
    · subst hk
      simp [alookup] at h
      subst h
      have hrest : rest.any (overEntry rm now k0) = false := by
        rw [List.any_eq_false]
        intro e he
        have : e.1 ≠ k0 := by
          intro hh
          exact hnd.1 (hh ▸ List.mem_map.mpr ⟨e, he, rfl⟩)
        simp [overEntry, this]
      simp [overEntry, hrest]
    · simp only [alookup, if_neg hk] at h
      simp [overEntry, hk, ih hnd.2 h]

/-! ### Merge lemma for PATCH -/

theorem alookup_mergeInto (a b : AList Json) (k : String)
    (hnd : (b.map Prod.fst).Nodup) :
    alookup (mergeInto a b) k =
      match alookup b k with
      | some v => some v
      | none => alookup a k := by
  induction b generalizing a with
  | nil => rfl
  | cons e rest ih =>
    obtain ⟨k0, v0⟩ := e
    simp only [List.map_cons, List.nodup_cons] at hnd
    show alookup (mergeInto (aset a k0 v0) rest) k = _
    rw [ih _ hnd.2]
    by_cases hk : k0 = k
    · subst hk
      have : alookup rest k0 = none :=
        alookup_eq_none_of_not_mem rest k0 hnd.1
      simp [alookup, this, alookup_aset_self]
    · simp [alookup, hk, alookup_aset_ne _ _ _ _ (Ne.symm hk)]

/-! ### State preservation of the read handlers -/

theorem getOneHandler_preserves (st : ServerState) (id : String) :
    (getOneHandler st id).2 = st := by
  unfold getOneHandler
  cases jsTruthyGet st.dataStore id with
  | some v => rfl
  | none =>
    cases alookup st.disk id with
    | none => rfl
    | some f =>
      obtain ⟨fd, mt⟩ := f
      cases fd with
      | good j => rfl
      | corrupt => rfl

theorem getAllHandler_preserves (st : ServerState) :
    (getAllHandler st).2 = st := rfl

/-! ### Claims -/

/-- Claim C1, counterexample: POST the body `{title:"t"}` on an empty server;
the subsequent `GET /json/:id` answers 200 with exactly the posted body,
which carries no `createdAt` field — not the body plus `createdAt` the claim
requires. -/
theorem claim_C1_counterexample :
    (getOneHandler (createHandler ⟨[], []⟩ (some (Json.obj [("title", Json.str "t")]))
        "a" "http://h" ⟨"T1", 0⟩).2 "a").1.status = 200 ∧
    (getOneHandler (createHandler ⟨[], []⟩ (some (Json.obj [("title", Json.str "t")]))
        "a" "http://h" ⟨"T1", 0⟩).2 "a").1.body = Json.obj [("title", Json.str "t")] ∧
    alookup [("title", Json.str "t")] "createdAt" = none :=
  ⟨rfl, rfl, rfl⟩

/-- Claim C1, amended: for every JSON body `B`, a create (POST /json)
returns 201 with the fresh ID and writes the file holding `B`'s fields plus
a `createdAt` stamp; a subsequent GET of that ID returns exactly `B` —
served from the Item Store, which holds the raw body without `createdAt` —
when `B` is truthy, and returns the file content (`B`'s fields plus
`createdAt`) when `B` is falsy, the falsy store entry making GET fall back
to disk. -/
theorem claim_C1 (store : AList Json) (disk : AList DiskFile) (b : Json)
    (id baseUrl : String) (clk : Clock) :
    (createHandler ⟨store, disk⟩ (some b) id baseUrl clk).1.status = 201 ∧
    (createHandler ⟨store, disk⟩ (some b) id baseUrl clk).1.body
        = Json.obj [("id", Json.str id),
                    ("url", Json.str (baseUrl ++ "/json/" ++ id)),
                    ("data", b)] ∧
    alookup (createHandler ⟨store, disk⟩ (some b) id baseUrl clk).2.disk id
        = some ⟨FileData.good (fileContentOf b clk.iso), some clk.ms⟩ ∧
    alookup (spreadFields (fileContentOf b clk.iso)) "createdAt"
        = some (Json.str clk.iso) ∧
    (getOneHandler (createHandler ⟨store, disk⟩ (some b) id baseUrl clk).2 id).1
        = (if truthy b = true then ⟨200, b⟩
           else ⟨200, fileContentOf b clk.iso⟩) := by
  refine ⟨rfl, ?_, ?_, ?_, ?_⟩
  · rfl
  · simp [createHandler, writeIndividualDataFile, alookup_aset_self]
  · exact alookup_aset_self (spreadFields b) "createdAt" (Json.str clk.iso)
  · by_cases hb : truthy b = true
    · have h1 : jsTruthyGet (aset store id b) id = some b :=
        jsTruthyGet_eq_some (alookup_aset_self store id b) hb
      rw [if_pos hb]
      simp [createHandler, getOneHandler, h1]
    · have hb2 : truthy b = false := by
        simpa using hb
      have h1 : jsTruthyGet (aset store id b) id = none :=
        jsTruthyGet_eq_none_of_falsy (alookup_aset_self store id b) hb2
      rw [if_neg hb]
      simp [createHandler, getOneHandler, h1, writeIndividualDataFile,
        alookup_aset_self]

/-- Claim C2: the code re-stamps `createdAt` on every write-through.  After a
create at time T1, a PUT at time T2 rewrites the file with `createdAt = T2`,
and a PATCH at time T3 rewrites it with `createdAt = T3`, with T2 and T3
different from the creation time T1 — contradicting the claim that
`createdAt` is set once and left unchanged by PUT and PATCH. -/
theorem claim_C2_restamp :
    alookup (createHandler ⟨[], []⟩ (some (Json.obj [("x", Json.num 1)])) "a" "u"
        ⟨"2024-01-01T00:00:00.000Z", 100⟩).2.disk "a"
      = some ⟨FileData.good (Json.obj [("x", Json.num 1),
          ("createdAt", Json.str "2024-01-01T00:00:00.000Z")]), some 100⟩ ∧
    alookup (putHandler (createHandler ⟨[], []⟩ (some (Json.obj [("x", Json.num 1)])) "a" "u"
          ⟨"2024-01-01T00:00:00.000Z", 100⟩).2 "a" (some (Json.obj [("x", Json.num 1)]))
          ⟨"2024-02-02T00:00:00.000Z", 200⟩).2.disk "a"
      = some ⟨FileData.good (Json.obj [("x", Json.num 1),
          ("createdAt", Json.str "2024-02-02T00:00:00.000Z")]), some 200⟩ ∧
    alookup (patchHandler (putHandler (createHandler ⟨[], []⟩
            (some (Json.obj [("x", Json.num 1)])) "a" "u"
            ⟨"2024-01-01T00:00:00.000Z", 100⟩).2 "a" (some (Json.obj [("x", Json.num 1)]))
          ⟨"2024-02-02T00:00:00.000Z", 200⟩).2 "a" (some (Json.obj [("y", Json.num 2)]))
          ⟨"2024-03-03T00:00:00.000Z", 300⟩).2.disk "a"
      = some ⟨FileData.good (Json.obj [("x", Json.num 1), ("y", Json.num 2),
          ("createdAt", Json.str "2024-03-03T00:00:00.000Z")]), some 300⟩ ∧
    ("2024-02-02T00:00:00.000Z" : String) ≠ "2024-01-01T00:00:00.000Z" ∧
    ("2024-03-03T00:00:00.000Z" : String) ≠ "2024-01-01T00:00:00.000Z" :=
  ⟨rfl, rfl, rfl, by decide, by decide⟩

/-- Claim C3: for an ID with no entry in the in-memory store, PUT, PATCH and
DELETE answer 404 and change nothing, whatever the disk holds — in
particular even when the file `<id>.json` exists. -/
theorem claim_C3 (store : AList Json) (disk : AList DiskFile) (id : String)
    (b : Json) (clk : Clock) (h : alookup store id = none) :
    putHandler ⟨store, disk⟩ id (some b) clk
        = (⟨404, jsonError "Not Found"⟩, ⟨store, disk⟩) ∧
    patchHandler ⟨store, disk⟩ id (some b) clk
        = (⟨404, jsonError "Not Found"⟩, ⟨store, disk⟩) ∧
    deleteHandler ⟨store, disk⟩ id
        = (⟨404, jsonError "Not Found"⟩, ⟨store, disk⟩) := by
  have h0 : jsTruthyGet store id = none := jsTruthyGet_eq_none_of_none h
  exact ⟨by simp [putHandler, h0], by simp [patchHandler, h0],
    by simp [deleteHandler, h0]⟩

/-- Claim C3, witness: the store is empty while the file `x.json` exists on
disk; all three mutating routes answer 404. -/
theorem claim_C3_witness :
    alookup ([] : AList Json) "x" = none ∧
    (putHandler ⟨[], [("x", ⟨FileData.good (Json.obj []), some 0⟩)]⟩ "x"
          (some (Json.obj [])) ⟨"T", 0⟩
        = (⟨404, jsonError "Not Found"⟩,
           ⟨[], [("x", ⟨FileData.good (Json.obj []), some 0⟩)]⟩) ∧
     patchHandler ⟨[], [("x", ⟨FileData.good (Json.obj []), some 0⟩)]⟩ "x"
          (some (Json.obj [])) ⟨"T", 0⟩
        = (⟨404, jsonError "Not Found"⟩,
           ⟨[], [("x", ⟨FileData.good (Json.obj []), some 0⟩)]⟩) ∧
     deleteHandler ⟨[], [("x", ⟨FileData.good (Json.obj []), some 0⟩)]⟩ "x"
        = (⟨404, jsonError "Not Found"⟩,
           ⟨[], [("x", ⟨FileData.good (Json.obj []), some 0⟩)]⟩)) :=
  ⟨rfl, claim_C3 [] [("x", ⟨FileData.good (Json.obj []), some 0⟩)] "x"
    (Json.obj []) ⟨"T", 0⟩ rfl⟩

/-- Claim C4, counterexample: the Item Store maps `"a"` to the falsy value
`false` while the file `a.json` holds `{x:1}`; `GET /json` puts the on-disk
value in the result, so memory does NOT win on this conflict even though the
snapshot has an entry for the ID. -/
theorem claim_C4_counterexample :
    alookup [("a", Json.bool false)] "a" = some (Json.bool false) ∧
    alookup (getAllFold [("a", Json.bool false)]
        [("a", ⟨FileData.good (Json.obj [("x", Json.num 1)]), some 0⟩)]) "a"
      = some (Json.obj [("x", Json.num 1)]) ∧
    Json.obj [("x", Json.num 1)] ≠ Json.bool false :=
  ⟨rfl, rfl, fun h => Json.noConfusion h⟩

/-- Claim C4, amended: an item existing only on disk is served by
`GET /json/:id` (fallback read) and included in `GET /json`; `GET /json`
starts from the Item Store snapshot and adds from disk every ID whose
snapshot value is missing — memory wins on a conflict only when its value is
truthy — and neither read path writes anything back (both handlers leave the
state unchanged). -/
theorem claim_C4 (store : AList Json) (disk : AList DiskFile) (id : String)
    (f : DiskFile) (j : Json) (hnd : (disk.map Prod.fst).Nodup) :
    (alookup store id = none → alookup disk id = some f →
        f.data = FileData.good j →
        (getOneHandler ⟨store, disk⟩ id).1 = ⟨200, j⟩ ∧
        alookup (getAllFold store disk) id = some j) ∧
    (∀ v, alookup store id = some v → truthy v = false →
        alookup disk id = some f → f.data = FileData.good j →
        alookup (getAllFold store disk) id = some j) ∧
    (∀ v, alookup store id = some v → truthy v = true →
        alookup (getAllFold store disk) id = some v) ∧
    (getOneHandler ⟨store, disk⟩ id).2 = ⟨store, disk⟩ ∧
    (getAllHandler ⟨store, disk⟩).2 = ⟨store, disk⟩ := by
  refine ⟨?_, ?_, ?_, getOneHandler_preserves _ _, rfl⟩
  · intro hm hd hj
    have h0 : jsTruthyGet store id = none := jsTruthyGet_eq_none_of_none hm
    exact ⟨by simp [getOneHandler, h0, hd, hj],
      getAllFold_adds disk store id f j hnd h0 (alookup_mem _ _ _ hd) hj⟩
  · intro v hv ht hd hj
    exact getAllFold_adds disk store id f j hnd
      (jsTruthyGet_eq_none_of_falsy hv ht) (alookup_mem _ _ _ hd) hj
  · intro v hv ht
    exact getAllFold_mem_truthy disk store id v hv ht

/-- Claim C4, witness: instantiation with a disk-only item `{z:3}` under id
`"d"` and an empty store. -/
theorem claim_C4_witness :
    ((([("d", (⟨FileData.good (Json.obj [("z", Json.num 3)]), some 0⟩ : DiskFile))] :
        AList DiskFile).map Prod.fst).Nodup) ∧
    ((alookup ([] : AList Json) "d" = none →
        alookup [("d", (⟨FileData.good (Json.obj [("z", Json.num 3)]), some 0⟩ : DiskFile))] "d"
          = some ⟨FileData.good (Json.obj [("z", Json.num 3)]), some 0⟩ →
        (⟨FileData.good (Json.obj [("z", Json.num 3)]), some 0⟩ : DiskFile).data
          = FileData.good (Json.obj [("z", Json.num 3)]) →
        (getOneHandler ⟨[], [("d", ⟨FileData.good (Json.obj [("z", Json.num 3)]), some 0⟩)]⟩ "d").1
          = ⟨200, Json.obj [("z", Json.num 3)]⟩ ∧
        alookup (getAllFold []
            [("d", ⟨FileData.good (Json.obj [("z", Json.num 3)]), some 0⟩)]) "d"
          = some (Json.obj [("z", Json.num 3)])) ∧
     (∀ v, alookup ([] : AList Json) "d" = some v → truthy v = false →
        alookup [("d", (⟨FileData.good (Json.obj [("z", Json.num 3)]), some 0⟩ : DiskFile))] "d"
          = some ⟨FileData.good (Json.obj [("z", Json.num 3)]), some 0⟩ →
        (⟨FileData.good (Json.obj [("z", Json.num 3)]), some 0⟩ : DiskFile).data
          = FileData.good (Json.obj [("z", Json.num 3)]) →
        alookup (getAllFold []
            [("d", ⟨FileData.good (Json.obj [("z", Json.num 3)]), some 0⟩)]) "d"
          = some (Json.obj [("z", Json.num 3)])) ∧
     (∀ v, alookup ([] : AList Json) "d" = some v → truthy v = true →
        alookup (getAllFold []
            [("d", ⟨FileData.good (Json.obj [("z", Json.num 3)]), some 0⟩)]) "d" = some v) ∧
     (getOneHandler ⟨[], [("d", ⟨FileData.good (Json.obj [("z", Json.num 3)]), some 0⟩)]⟩ "d").2
        = ⟨[], [("d", ⟨FileData.good (Json.obj [("z", Json.num 3)]), some 0⟩)]⟩ ∧
     (getAllHandler ⟨[], [("d", ⟨FileData.good (Json.obj [("z", Json.num 3)]), some 0⟩)]⟩).2
        = ⟨[], [("d", ⟨FileData.good (Json.obj [("z", Json.num 3)]), some 0⟩)]⟩) :=
  ⟨by simp, claim_C4 [] [("d", ⟨FileData.good (Json.obj [("z", Json.num 3)]), some 0⟩)]
    "d" ⟨FileData.good (Json.obj [("z", Json.num 3)]), some 0⟩
    (Json.obj [("z", Json.num 3)]) (by simp)⟩

/-- Claim C5, counterexample: the store maps `"a"` to the falsy value `0`
while the over-age file `a.json` exists; the sweep deletes the file but
leaves the store entry in place, contradicting the claim that a present
entry is also removed from the Item Store. -/
theorem claim_C5_counterexample :
    (cleanupOldFiles none 1000000000000
        ⟨[("a", Json.num 0)], [("a", ⟨FileData.good (Json.obj []), some 0⟩)]⟩).disk = [] ∧
    alookup (cleanupOldFiles none 1000000000000
        ⟨[("a", Json.num 0)], [("a", ⟨FileData.good (Json.obj []), some 0⟩)]⟩).dataStore "a"
      = some (Json.num 0) ∧
    isOver (retentionDaysOf none * 86400000) 1000000000000
        ⟨FileData.good (Json.obj []), some 0⟩ = true :=
  ⟨rfl, rfl, rfl⟩

/-- Claim C5, amended: a sweep deletes from disk exactly the item files whose
age strictly exceeds the retention threshold (default 7 days), and for each
deleted file it removes the entry from the Item Store only when
`dataStore[id]` is truthy — a falsy-valued entry is left in place; every
file whose age does not exceed the threshold is kept on disk and its id's
store entry is untouched. -/
theorem claim_C5 (cfg : Option Int) (now : Int) (store : AList Json)
    (disk : AList DiskFile) (id : String) (f : DiskFile)
    (hnd : (disk.map Prod.fst).Nodup) (hf : alookup disk id = some f) :
    (isOver (retentionDaysOf cfg * 86400000) now f = true →
        alookup (cleanupOldFiles cfg now ⟨store, disk⟩).disk id = none ∧
        (jsTruthyGet store id ≠ none →
          alookup (cleanupOldFiles cfg now ⟨store, disk⟩).dataStore id = none) ∧
        (jsTruthyGet store id = none →
          alookup (cleanupOldFiles cfg now ⟨store, disk⟩).dataStore id
            = alookup store id)) ∧
    (isOver (retentionDaysOf cfg * 86400000) now f = false →
        alookup (cleanupOldFiles cfg now ⟨store, disk⟩).disk id = some f ∧
        alookup (cleanupOldFiles cfg now ⟨store, disk⟩).dataStore id
          = alookup store id) := by
  have hcu : cleanupOldFiles cfg now ⟨store, disk⟩
      = disk.foldl (cleanupStep (retentionDaysOf cfg * 86400000) now)
          ⟨store, disk⟩ := rfl
  have hany := any_overEntry_of_lookup disk id f
    (retentionDaysOf cfg * 86400000) now hnd hf
  constructor
  · intro hover
    rw [hover] at hany
    refine ⟨?_, ?_, ?_⟩
    · rw [hcu, cleanup_foldl_disk]
      simp [hany]
    · intro hne
      have hsome : (jsTruthyGet store id).isSome = true :=
        Option.isSome_iff_ne_none.mpr hne
      rw [hcu, cleanup_foldl_store]
      simp [hany, hsome]
    · intro heq
      rw [hcu, cleanup_foldl_store]
      simp [heq]
  · intro hover
    rw [hover] at hany
    constructor
    · rw [hcu, cleanup_foldl_disk]
      simp [hany, hf]
    · rw [hcu, cleanup_foldl_store]
      simp [hany]

/-- Claim C5, witness: a two-file directory in which `old.json` (age well
over the 7-day default) is swept — deleting the file and the truthy store
entry — while `new.json` (age under threshold) is retained. -/
theorem claim_C5_witness :
    ((([("old", (⟨FileData.good Json.null, some 0⟩ : DiskFile)),
        ("new", (⟨FileData.good Json.null, some 999999999000⟩ : DiskFile))] :
        AList DiskFile).map Prod.fst).Nodup) ∧
    alookup [("old", (⟨FileData.good Json.null, some 0⟩ : DiskFile)),
        ("new", ⟨FileData.good Json.null, some 999999999000⟩)] "old"
      = some ⟨FileData.good Json.null, some 0⟩ ∧
    (isOver (retentionDaysOf none * 86400000) 1000000000000
        ⟨FileData.good Json.null, some 0⟩ = true →
      alookup (cleanupOldFiles none 1000000000000
          ⟨[("old", Json.bool true)],
           [("old", ⟨FileData.good Json.null, some 0⟩),
            ("new", ⟨FileData.good Json.null, some 999999999000⟩)]⟩).disk "old" = none ∧
      (jsTruthyGet [("old", Json.bool true)] "old" ≠ none →
        alookup (cleanupOldFiles none 1000000000000
            ⟨[("old", Json.bool true)],
             [("old", ⟨FileData.good Json.null, some 0⟩),
              ("new", ⟨FileData.good Json.null, some 999999999000⟩)]⟩).dataStore "old" = none) ∧
      (jsTruthyGet [("old", Json.bool true)] "old" = none →
        alookup (cleanupOldFiles none 1000000000000
            ⟨[("old", Json.bool true)],
             [("old", ⟨FileData.good Json.null, some 0⟩),
              ("new", ⟨FileData.good Json.null, some 999999999000⟩)]⟩).dataStore "old"
          = alookup [("old", Json.bool true)] "old")) ∧
    (isOver (retentionDaysOf none * 86400000) 1000000000000
        ⟨FileData.good Json.null, some 0⟩ = false →
      alookup (cleanupOldFiles none 1000000000000
          ⟨[("old", Json.bool true)],
           [("old", ⟨FileData.good Json.null, some 0⟩),
            ("new", ⟨FileData.good Json.null, some 999999999000⟩)]⟩).disk "old"
        = some ⟨FileData.good Json.null, some 0⟩ ∧
      alookup (cleanupOldFiles none 1000000000000
          ⟨[("old", Json.bool true)],
           [("old", ⟨FileData.good Json.null, some 0⟩),
            ("new", ⟨FileData.good Json.null, some 999999999000⟩)]⟩).dataStore "old"
        = alookup [("old", Json.bool true)] "old") :=
  ⟨by simp, rfl,
    (claim_C5 none 1000000000000 [("old", Json.bool true)]
      [("old", ⟨FileData.good Json.null, some 0⟩),
       ("new", ⟨FileData.good Json.null, some 999999999000⟩)] "old"
      ⟨FileData.good Json.null, some 0⟩ (by simp) rfl).1,
    (claim_C5 none 1000000000000 [("old", Json.bool true)]
      [("old", ⟨FileData.good Json.null, some 0⟩),
       ("new", ⟨FileData.good Json.null, some 999999999000⟩)] "old"
      ⟨FileData.good Json.null, some 0⟩ (by simp) rfl).2⟩

/-- Claim C6: evaluation of the scheduler arithmetic.  On a host in the
Asia/Jakarta zone (`getTimezoneOffset() = -420`) the computed startup delay
equals the time to the next Jakarta midnight, but on a UTC host the same
start instant yields a delay of a full day — firing 25200000 ms (7 hours)
after the Jakarta midnight the documentation promises — and on a UTC+14 host
(offset -840) at Jakarta wall-clock 18:00 the computed delay is negative, so
`setTimeout` fires immediately at process start. -/
theorem claim_C6_schedule_eval :
    scheduleCleanupDelay (-420) 1704067200000
        = nextJakartaMidnight 1704067200000 - 1704067200000 ∧
    nextJakartaMidnight 1704067200000 - 1704067200000 = 61200000 ∧
    scheduleCleanupDelay 0 1704067200000 = 86400000 ∧
    1704067200000 + scheduleCleanupDelay 0 1704067200000
        - nextJakartaMidnight 1704067200000 = 25200000 ∧
    scheduleCleanupDelay (-840) 1704106800000 = -3600000 ∧
    scheduleCleanupDelay (-840) 1704106800000 < 0 :=
  ⟨by decide, by decide, by decide, by decide, by decide, by decide⟩

/-- Claim C7: PATCH on an existing object item merges only top-level keys —
the response and the new store value are `{...old, ...updates}`, keys absent
from the update body keep their prior values, keys present take the update's
values, and on `{title:"t", content:"c"}` the update `{content:"x"}` yields
`{title:"t", content:"x"}`. -/
theorem claim_C7 (store : AList Json) (disk : AList DiskFile) (id : String)
    (old upd : AList Json) (clk : Clock)
    (hold : alookup store id = some (Json.obj old))
    (hnd : (upd.map Prod.fst).Nodup) :
    (patchHandler ⟨store, disk⟩ id (some (Json.obj upd)) clk).1
        = ⟨200, Json.obj (mergeInto old upd)⟩ ∧
    (patchHandler ⟨store, disk⟩ id (some (Json.obj upd)) clk).2.dataStore
        = aset store id (Json.obj (mergeInto old upd)) ∧
    (∀ k, alookup upd k = none →
        alookup (mergeInto old upd) k = alookup old k) ∧
    (∀ k v, alookup upd k = some v →
        alookup (mergeInto old upd) k = some v) ∧
    mergeInto [("title", Json.str "t"), ("content", Json.str "c")]
        [("content", Json.str "x")]
      = [("title", Json.str "t"), ("content", Json.str "x")] := by
  have h0 : jsTruthyGet store id = some (Json.obj old) :=
    jsTruthyGet_eq_some hold rfl
  refine ⟨?_, ?_, ?_, ?_, rfl⟩
  · simp [patchHandler, h0, spreadFields]
  · simp [patchHandler, h0, spreadFields]
  · intro k hk
    rw [alookup_mergeInto old upd k hnd, hk]
  · intro k v hk
    rw [alookup_mergeInto old upd k hnd, hk]

/-- Claim C7, witness: the claim's own concrete instance
`{title:"t", content:"c"}` patched with `{content:"x"}`. -/
theorem claim_C7_witness :
    alookup [("i", Json.obj [("title", Json.str "t"), ("content", Json.str "c")])] "i"
      = some (Json.obj [("title", Json.str "t"), ("content", Json.str "c")]) ∧
    ((patchHandler ⟨[("i", Json.obj [("title", Json.str "t"), ("content", Json.str "c")])], []⟩
          "i" (some (Json.obj [("content", Json.str "x")])) ⟨"T", 0⟩).1
        = ⟨200, Json.obj (mergeInto [("title", Json.str "t"), ("content", Json.str "c")]
            [("content", Json.str "x")])⟩ ∧
     (patchHandler ⟨[("i", Json.obj [("title", Json.str "t"), ("content", Json.str "c")])], []⟩
          "i" (some (Json.obj [("content", Json.str "x")])) ⟨"T", 0⟩).2.dataStore
        = aset [("i", Json.obj [("title", Json.str "t"), ("content", Json.str "c")])] "i"
            (Json.obj (mergeInto [("title", Json.str "t"), ("content", Json.str "c")]
              [("content", Json.str "x")])) ∧
     (∀ k, alookup [("content", Json.str "x")] k = none →
        alookup (mergeInto [("title", Json.str "t"), ("content", Json.str "c")]
            [("content", Json.str "x")]) k
          = alookup [("title", Json.str "t"), ("content", Json.str "c")] k) ∧
     (∀ k v, alookup [("content", Json.str "x")] k = some v →
        alookup (mergeInto [("title", Json.str "t"), ("content", Json.str "c")]
            [("content", Json.str "x")]) k = some v) ∧
     mergeInto [("title", Json.str "t"), ("content", Json.str "c")]
          [("content", Json.str "x")]
        = [("title", Json.str "t"), ("content", Json.str "x")]) :=
  ⟨rfl, claim_C7 [("i", Json.obj [("title", Json.str "t"), ("content", Json.str "c")])]
    [] "i" [("title", Json.str "t"), ("content", Json.str "c")]
    [("content", Json.str "x")] ⟨"T", 0⟩ rfl (by simp)⟩

/-- Claim C8: an item whose stored value is falsy is treated as absent by the
truthiness checks — `GET /json/:id` ignores the entry and behaves exactly as
the disk dictates (200 with the file content, 500 when it is corrupt, 404
when it is missing), PUT/PATCH/DELETE answer 404 and change nothing even
though the store has an entry for the ID, and in `GET /json` the on-disk
version overwrites the in-memory value in the result. -/
theorem claim_C8 (store : AList Json) (disk : AList DiskFile) (id : String)
    (v b : Json) (clk : Clock)
    (hv : alookup store id = some v) (hf : truthy v = false)
    (hnd : (disk.map Prod.fst).Nodup) :
    (getOneHandler ⟨store, disk⟩ id =
       match alookup disk id with
       | some f =>
         match f.data with
         | FileData.good j => (⟨200, j⟩, (⟨store, disk⟩ : ServerState))
         | FileData.corrupt =>
             (⟨500, jsonError "Internal Server Error"⟩, (⟨store, disk⟩ : ServerState))
       | none => (⟨404, jsonError "Not Found"⟩, (⟨store, disk⟩ : ServerState))) ∧
    putHandler ⟨store, disk⟩ id (some b) clk
        = (⟨404, jsonError "Not Found"⟩, ⟨store, disk⟩) ∧
    patchHandler ⟨store, disk⟩ id (some b) clk
        = (⟨404, jsonError "Not Found"⟩, ⟨store, disk⟩) ∧
    deleteHandler ⟨store, disk⟩ id
        = (⟨404, jsonError "Not Found"⟩, ⟨store, disk⟩) ∧
    (∀ f j, alookup disk id = some f → f.data = FileData.good j →
        alookup (getAllFold store disk) id = some j) := by
  have h0 : jsTruthyGet store id = none := jsTruthyGet_eq_none_of_falsy hv hf
  refine ⟨?_, by simp [putHandler, h0], by simp [patchHandler, h0],
    by simp [deleteHandler, h0], ?_⟩
  · show (match jsTruthyGet store id with
      | some w => ((⟨200, w⟩ : Response), (⟨store, disk⟩ : ServerState))
      | none =>
        match alookup disk id with
        | some f =>
          match f.data with
          | FileData.good j => (⟨200, j⟩, (⟨store, disk⟩ : ServerState))
          | FileData.corrupt =>
              (⟨500, jsonError "Internal Server Error"⟩, (⟨store, disk⟩ : ServerState))
        | none => (⟨404, jsonError "Not Found"⟩, (⟨store, disk⟩ : ServerState))) = _
    rw [h0]
  · intro f j hd hj
    exact getAllFold_adds disk store id f j hnd h0 (alookup_mem _ _ _ hd) hj

/-- Claim C8, witness: the store maps `"a"` to the falsy value `""` while the
file `a.json` holds `{w:4}`; the getters serve the disk value and the
mutators answer 404. -/
theorem claim_C8_witness :
    alookup [("a", Json.str "")] "a" = some (Json.str "") ∧
    truthy (Json.str "") = false ∧
    ((getOneHandler ⟨[("a", Json.str "")],
          [("a", ⟨FileData.good (Json.obj [("w", Json.num 4)]), some 0⟩)]⟩ "a" =
       match alookup [("a", (⟨FileData.good (Json.obj [("w", Json.num 4)]), some 0⟩ : DiskFile))] "a" with
       | some f =>
         match f.data with
         | FileData.good j => (⟨200, j⟩,
             (⟨[("a", Json.str "")],
               [("a", ⟨FileData.good (Json.obj [("w", Json.num 4)]), some 0⟩)]⟩ : ServerState))
         | FileData.corrupt =>
             (⟨500, jsonError "Internal Server Error"⟩,
              (⟨[("a", Json.str "")],
                [("a", ⟨FileData.good (Json.obj [("w", Json.num 4)]), some 0⟩)]⟩ : ServerState))
       | none => (⟨404, jsonError "Not Found"⟩,
           (⟨[("a", Json.str "")],
             [("a", ⟨FileData.good (Json.obj [("w", Json.num 4)]), some 0⟩)]⟩ : ServerState))) ∧
     putHandler ⟨[("a", Json.str "")],
          [("a", ⟨FileData.good (Json.obj [("w", Json.num 4)]), some 0⟩)]⟩ "a"
          (some (Json.obj [])) ⟨"T", 0⟩
        = (⟨404, jsonError "Not Found"⟩,
           ⟨[("a", Json.str "")],
            [("a", ⟨FileData.good (Json.obj [("w", Json.num 4)]), some 0⟩)]⟩) ∧
     patchHandler ⟨[("a", Json.str "")],
          [("a", ⟨FileData.good (Json.obj [("w", Json.num 4)]), some 0⟩)]⟩ "a"
          (some (Json.obj [])) ⟨"T", 0⟩
        = (⟨404, jsonError "Not Found"⟩,
           ⟨[("a", Json.str "")],
            [("a", ⟨FileData.good (Json.obj [("w", Json.num 4)]), some 0⟩)]⟩) ∧
     deleteHandler ⟨[("a", Json.str "")],
          [("a", ⟨FileData.good (Json.obj [("w", Json.num 4)]), some 0⟩)]⟩ "a"
        = (⟨404, jsonError "Not Found"⟩,
           ⟨[("a", Json.str "")],
            [("a", ⟨FileData.good (Json.obj [("w", Json.num 4)]), some 0⟩)]⟩) ∧
     (∀ f j, alookup [("a", (⟨FileData.good (Json.obj [("w", Json.num 4)]), some 0⟩ : DiskFile))] "a"
          = some f → f.data = FileData.good j →
        alookup (getAllFold [("a", Json.str "")]
            [("a", ⟨FileData.good (Json.obj [("w", Json.num 4)]), some 0⟩)]) "a" = some j)) :=
  ⟨rfl, rfl, claim_C8 [("a", Json.str "")]
    [("a", ⟨FileData.good (Json.obj [("w", Json.num 4)]), some 0⟩)] "a"
    (Json.str "") (Json.obj []) ⟨"T", 0⟩ rfl rfl (by simp)⟩

/-- Claim C9: on PUT and PATCH the body is parsed before the existence check,
so for any state and any ID a malformed body yields 400 Bad Request — never
404 — and the state is returned unchanged. -/
theorem claim_C9 (st : ServerState) (id : String) (clk : Clock) :
    putHandler st id none clk
        = (⟨400, jsonError "Bad Request - Invalid JSON"⟩, st) ∧
    patchHandler st id none clk
        = (⟨400, jsonError "Bad Request - Invalid JSON"⟩, st) :=
  ⟨rfl, rfl⟩

/-- Claim C10: corrupt files are handled asymmetrically — `GET /json` skips a
corrupt file (omitting the id from the result) and still answers 200 with
the remaining readable items, whereas `GET /json/:id` on an existing but
corrupt file answers 500 Internal Server Error, not 404. -/
theorem claim_C10 (store : AList Json) (disk : AList DiskFile) (id : String)
    (f : DiskFile) (hnd : (disk.map Prod.fst).Nodup)
    (hmem : alookup store id = none) (hdisk : alookup disk id = some f)
    (hcor : f.data = FileData.corrupt) :
    alookup (getAllFold store disk) id = none ∧
    (getAllHandler ⟨store, disk⟩).1.status = 200 ∧
    (getOneHandler ⟨store, disk⟩ id).1
        = ⟨500, jsonError "Internal Server Error"⟩ ∧
    (getOneHandler ⟨store, disk⟩ id).1.status ≠ 404 ∧
    (∀ id2 f2 j2, alookup store id2 = none → alookup disk id2 = some f2 →
        f2.data = FileData.good j2 →
        alookup (getAllFold store disk) id2 = some j2) := by
  have h0 : jsTruthyGet store id = none := jsTruthyGet_eq_none_of_none hmem
  have hall : ∀ g, (id, g) ∈ disk → g.data = FileData.corrupt := by
    intro g hg
    have h1 : alookup disk id = some g := alookup_of_mem_nodup disk id g hnd hg
    have h2 : f = g := Option.some.inj (hdisk.symm.trans h1)
    rw [← h2]
    exact hcor
  refine ⟨(getAllFold_corrupt_skip disk store id hall).trans hmem, rfl, ?_, ?_, ?_⟩
  · simp [getOneHandler, h0, hdisk, hcor]
  · simp [getOneHandler, h0, hdisk, hcor]
  · intro id2 f2 j2 h1 h2 h3
    exact getAllFold_adds disk store id2 f2 j2 hnd
      (jsTruthyGet_eq_none_of_none h1) (alookup_mem _ _ _ h2) h3

/-- Claim C10, witness: a directory holding the corrupt file `bad.json` and
the readable file `ok.json` with `{n:9}`, with an empty store. -/
theorem claim_C10_witness :
    ((([("bad", (⟨FileData.corrupt, some 0⟩ : DiskFile)),
        ("ok", (⟨FileData.good (Json.obj [("n", Json.num 9)]), some 0⟩ : DiskFile))] :
        AList DiskFile).map Prod.fst).Nodup) ∧
    alookup ([] : AList Json) "bad" = none ∧
    (alookup (getAllFold []
        [("bad", ⟨FileData.corrupt, some 0⟩),
         ("ok", ⟨FileData.good (Json.obj [("n", Json.num 9)]), some 0⟩)]) "bad" = none ∧
     (getAllHandler ⟨[], [("bad", ⟨FileData.corrupt, some 0⟩),
         ("ok", ⟨FileData.good (Json.obj [("n", Json.num 9)]), some 0⟩)]⟩).1.status = 200 ∧
     (getOneHandler ⟨[], [("bad", ⟨FileData.corrupt, some 0⟩),
         ("ok", ⟨FileData.good (Json.obj [("n", Json.num 9)]), some 0⟩)]⟩ "bad").1
        = ⟨500, jsonError "Internal Server Error"⟩ ∧
     (getOneHandler ⟨[], [("bad", ⟨FileData.corrupt, some 0⟩),
         ("ok", ⟨FileData.good (Json.obj [("n", Json.num 9)]), some 0⟩)]⟩ "bad").1.status ≠ 404 ∧
     (∀ id2 f2 j2, alookup ([] : AList Json) id2 = none →
        alookup [("bad", (⟨FileData.corrupt, some 0⟩ : DiskFile)),
          ("ok", (⟨FileData.good (Json.obj [("n", Json.num 9)]), some 0⟩ : DiskFile))] id2
          = some f2 →
        f2.data = FileData.good j2 →
        alookup (getAllFold []
            [("bad", ⟨FileData.corrupt, some 0⟩),
             ("ok", ⟨FileData.good (Json.obj [("n", Json.num 9)]), some 0⟩)]) id2 = some j2)) :=
  ⟨by simp, rfl, claim_C10 []
    [("bad", ⟨FileData.corrupt, some 0⟩),
     ("ok", ⟨FileData.good (Json.obj [("n", Json.num 9)]), some 0⟩)] "bad"
    ⟨FileData.corrupt, some 0⟩ (by simp) rfl rfl rfl⟩

end JsonCrud
